import Mathlib

/-!
Verification development for the GBF-to-HTML rendering filter
(`src/backend/filters/gbftohtml.cpp`): a shallow embedding of the
annotation post-processor of `GbfToHtml::processText`, the hex-escape
helpers `hexDigitValue` / `hexToChar`, the token substitution table built
in the `GbfToHtml` constructor, and `GbfToHtml::handleToken`.

Buffers (`sword::SWBuf`, `QString`) are modelled as `List Char`; the
inputs handled by the filter are ASCII, where the Qt and sword string
operations coincide with plain list operations.
-/

/-- Shorthand turning a string literal into the `List Char` buffer model. -/
def qs (s : String) : List Char := s.toList

/-- `QChar::isSpace` restricted to the ASCII range used by the markup. -/
def qIsSpace (c : Char) : Bool :=
  c = ' ' || c = '\t' || c = '\n' || c = '\x0b' || c = '\x0c' || c = '\r'

/-- `QChar::isPunct` restricted to the ASCII range: the Unicode punctuation
categories Pc, Pd, Ps, Pe, Po intersected with ASCII.  (`<`, `>`, `=`, `+`,
`|`, `~`, `^` and `$` are symbols, not punctuation.) -/
def qIsPunct (c : Char) : Bool :=
  c = '!' || c = '"' || c = '#' || c = '%' || c = '&' || c = '\'' ||
  c = '(' || c = ')' || c = '*' || c = ',' || c = '-' || c = '.' ||
  c = '/' || c = ':' || c = ';' || c = '?' || c = '@' || c = '[' ||
  c = '\\' || c = ']' || c = '_' || c = '{' || c = '}'

/-- The punctuation class `[.,;:]` used by the segmentation and cleanup
regular expressions in `processText`. -/
def isSegPunct (c : Char) : Bool :=
  c = '.' || c = ',' || c = ';' || c = ':'

/-- `QString::trimmed`: strip leading and trailing whitespace. -/
def qtrim (e : List Char) : List Char :=
  ((e.dropWhile qIsSpace).reverse.dropWhile qIsSpace).reverse

/-- `QString::insert(pos, str)` for in-range positions. -/
def qInsert (e : List Char) (pos : Nat) (r : List Char) : List Char :=
  e.take pos ++ r ++ e.drop pos

/-- `QString::remove(pos, n)`. -/
def qRemove (e : List Char) (pos n : Nat) : List Char :=
  e.take pos ++ e.drop (pos + n)

/-- `QString::replace(pos, n, str)`. -/
def qReplace (e : List Char) (pos n : Nat) (r : List Char) : List Char :=
  e.take pos ++ r ++ e.drop (pos + n)

/-- Anchored match of the raw word-origin marker pattern
`<W([HGT])([^>]*)>` at the head of a buffer suffix.  Returns the kind
capture (`cap(1)`), the value capture (`cap(2)`) and the matched length.
`[^>]*` necessarily stops at the first `>`, so minimal and greedy
matching agree. -/
def markerHere : List Char → Option (Char × List Char × Nat)
  | a :: b :: k :: rest =>
    if a = '<' ∧ b = 'W' ∧ (k = 'H' ∨ k = 'G' ∨ k = 'T') then
      if rest.any (fun c => c = '>') then
        let cap2 := rest.takeWhile (fun c => !(c = '>'))
        some (k, cap2, cap2.length + 4)
      else none
    else none
  | _ => none

/-- `tag.indexIn(e, pos)` for the marker pattern: leftmost match at an
index `≥ pos`, as (index, kind, value capture, matched length). -/
def tagSearchAux : List Char → Nat → Option (Nat × Char × List Char × Nat)
  | [], _ => none
  | c :: rest, i =>
    match markerHere (c :: rest) with
    | some (k, cap, len) => some (i, k, cap, len)
    | none => tagSearchAux rest (i + 1)

/-- Leftmost marker match at index `≥ pos` (`QRegExp::indexIn` with offset). -/
def qTagIndexIn (e : List Char) (pos : Nat) : Option (Nat × Char × List Char × Nat) :=
  tagSearchAux (e.drop pos) pos

/-- Matched length of one unit `[.,;:]?<W[HGT][^>]*>` of the segmentation
pattern, anchored at the head of a suffix.  The optional punctuation
character is consumed exactly when present and followed by a marker
(backtracking to the empty alternative cannot succeed, since a
punctuation character is not `<`). -/
def segUnitHere (s : List Char) : Option Nat :=
  match s with
  | [] => none
  | c :: rest =>
    if isSegPunct c then (markerHere rest).map (fun r => r.2.2 + 1)
    else (markerHere s).map (fun r => r.2.2)

/-- Greedy match length of `([.,;:]?<W[HGT][^>]*>\s*)+` anchored at the
head of a suffix: one or more units, each followed by greedily consumed
whitespace.  `fuel` bounds the recursion; any value `≥ s.length` suffices
because every unit consumes at least four characters. -/
def segRunHere : Nat → List Char → Option Nat
  | 0, _ => none
  | fuel + 1, s =>
    match segUnitHere s with
    | none => none
    | some u =>
      let sp := ((s.drop u).takeWhile qIsSpace).length
      match segRunHere fuel (s.drop (u + sp)) with
      | some m => some (u + sp + m)
      | none => some (u + sp)

/-- Leftmost match of the segmentation pattern (index, matched length);
`tag.indexIn(t)` for `([.,;:]?<W[HGT][^>]*>\s*)+`. -/
def segSearchAux : List Char → Nat → Option (Nat × Nat)
  | [], _ => none
  | c :: rest, i =>
    match segRunHere (c :: rest).length (c :: rest) with
    | some len => some (i, len)
    | none => segSearchAux rest (i + 1)

/-- Leftmost match of the segmentation pattern in the whole buffer. -/
def qIndexOfSeg (t : List Char) : Option (Nat × Nat) :=
  segSearchAux t 0

/-- The segmentation loop of `processText`: repeatedly split off
`t.left(pos + matchedLength)` while the segmentation pattern matches,
then append the trailing text if nonempty. -/
def segments : Nat → List Char → List (List Char)
  | 0, t => if t.isEmpty then [] else [t]
  | fuel + 1, t =>
    match qIndexOfSeg t with
    | none => if t.isEmpty then [] else [t]
    | some (pos, len) => t.take (pos + len) :: segments fuel (t.drop (pos + len))

/-- Anchored match of the minimal attribute pattern `lemma=".+(?=")` or
`morph=".+(?=")` at the head of a suffix: the literal `name` (seven
characters, quote included), then a minimal nonempty run of characters
other than a newline, with a closing quote lookahead.  Returns the
matched length (the lookahead consumes nothing, so `foundPos + length`
is the index of the closing quote). -/
def attrHere (name : List Char) (s : List Char) : Option Nat :=
  if s.take 7 = name then
    match s.drop 7 with
    | [] => none
    | c0 :: rest =>
      if c0 = '\n' then none
      else
        match rest.findIdx? (fun c => c = '"' || c = '\n') with
        | some j => if rest.getD j ' ' = '"' then some (7 + 1 + j) else none
        | none => none
  else none

/-- `e.indexOf(attrRegExp, from)`: leftmost attribute match at an index
`≥ from`, as (index, matched length). -/
def attrSearchAux (name : List Char) : List Char → Nat → Option (Nat × Nat)
  | [], _ => none
  | c :: rest, i =>
    match attrHere name (c :: rest) with
    | some len => some (i, len)
    | none => attrSearchAux name rest (i + 1)

/-- Leftmost attribute match at an index `≥ start`. -/
def qAttrIndexOf (e : List Char) (name : List Char) (start : Nat) : Option (Nat × Nat) :=
  attrSearchAux name (e.drop start) start

/-- The scan of `processText` that skips whitespace and punctuation at the
start of a fragment before inserting the opening span
(`while ((startPos < pos) && (c.isSpace() || c.isPunct())) ++startPos`). -/
def scanStartAux : List Char → Nat → Nat → Nat
  | [], i, _ => i
  | c :: rest, i, pos =>
    if i < pos && (qIsSpace c || qIsPunct c) then scanStartAux rest (i + 1) pos
    else i

/-- Index of the first character of the word to wrap (see `scanStartAux`). -/
def scanStart (e : List Char) (pos : Nat) : Nat :=
  scanStartAux e 0 pos

/-- The `while (pos != -1)` loop of `processText` over all marker matches
in one fragment.  The state mirrors the C++ locals: the fragment `e`, the
current match (with its captures), `insertedTag`, `hasLemmaAttr`,
`hasMorphAttr` and `tagAttributeStart` (an `Int`, initialised to `-1`).
`fuel` bounds the recursion; every reachable iteration consumes one
marker occurrence, so `e.length` iterations suffice. -/
def markerLoop : Nat → List Char → Option (Nat × Char × List Char × Nat) →
    Bool → Bool → Bool → Int → List Char
  | 0, e, _, _, _, _, _ => e
  | _ + 1, e, none, _, _, _, _ => e
  | fuel + 1, e, some (pos, kind, cap2, len), insertedTag, hasL, hasM, tagAttrStart =>
    let isMorph := kind = 'T'
    let value := if isMorph then cap2 else kind :: cap2
    if value.isEmpty then e
    else if !insertedTag then
      let e1 := qReplace e pos len (qs "</span>")
      let pos1 := pos + 7
      let rep := qs "<span " ++ (if isMorph then qs "morph" else qs "lemma")
                   ++ qs "=\"" ++ value ++ qs "\">"
      let startPos := scanStart e1 pos1
      let e2 := qInsert e1 startPos rep
      let pos2 := pos1 + rep.length
      markerLoop fuel e2 (qTagIndexIn e2 pos2) true (!isMorph) isMorph (startPos + 6)
    else
      let e1 := qRemove e pos len
      if tagAttrStart = -1 then
        markerLoop fuel e1 (some (pos, kind, cap2, len)) insertedTag hasL hasM tagAttrStart
      else if (!isMorph && hasL) || (isMorph && hasM) then
        match qAttrIndexOf e1 (if isMorph then qs "morph=\"" else qs "lemma=\"")
                tagAttrStart.toNat with
        | some (foundPos, matchLen) =>
          let e2 := qInsert e1 (foundPos + matchLen) ('|' :: value)
          let pos2 := pos + value.length + 1
          markerLoop fuel e2 (qTagIndexIn e2 pos2) true (!isMorph) isMorph tagAttrStart
        | none =>
          markerLoop fuel e1 (qTagIndexIn e1 pos) true hasL hasM tagAttrStart
      else
        let attr := (if isMorph then qs "morph" else qs "lemma")
                      ++ qs "=\"" ++ value ++ qs "\" "
        let pos2 := pos + attr.length
        let e2 := qInsert e1 tagAttrStart.toNat attr
        markerLoop fuel e2 (qTagIndexIn e2 pos2) true (!isMorph) isMorph tagAttrStart

/-- Per-fragment processing of `processText`: a fragment whose trimmed
text, with all `[.,;:]` characters removed, begins with `<W` is emitted
verbatim; otherwise the marker loop rewrites it. -/
def processFragment (e : List Char) : List Char :=
  if ((qtrim e).filter (fun c => !(isSegPunct c))).take 2 = qs "<W" then e
  else markerLoop (e.length + 1) e (qTagIndexIn e 0) false false false (-1)

/-- The annotation post-processing stage of `GbfToHtml::processText` on
the buffer produced by the streaming filter: if the segmentation pattern
does not match anywhere, return the buffer unchanged (early exit);
otherwise split the buffer into fragments and concatenate the processed
fragments. -/
def processTextPost (t : List Char) : List Char :=
  match qIndexOfSeg t with
  | none => t
  | some _ => ((segments (t.length + 1) t).map processFragment).foldl (· ++ ·) []

/-- The capability flags of the owning module that `processText` queries:
`isProcessEntryAttributes` on the sword module, whether
`CSwordBackend::instance()->findModuleByName` finds the module, and the
`CSwordModuleInfo` features `lemmas`, `morphTags` and `strongNumbers`. -/
structure BtModule where
  processEntryAttributes : Bool
  foundInBackend : Bool
  hasLemmas : Bool
  hasMorphTags : Bool
  hasStrongNumbers : Bool
deriving DecidableEq, Repr

/-- `GbfToHtml::processText` after the base-class streaming filter:
`buf` is the streaming filter's output buffer.  If per-entry attribute
processing is disabled, or the module is found in the backend and has
none of the three annotation features, the buffer is returned unchanged;
otherwise the annotation post-processor runs. -/
def processText (m : BtModule) (buf : List Char) : List Char :=
  if !m.processEntryAttributes then buf
  else if m.foundInBackend &&
          (!m.hasLemmas && !m.hasMorphTags && !m.hasStrongNumbers) then buf
  else processTextPost buf

/-- `hexDigitValue` from `gbftohtml.cpp`: the value of one hex digit, or
`none` where the C++ asserts false and aborts. -/
def hexDigitValue (c : Char) : Option Nat :=
  if '0' ≤ c ∧ c ≤ '9' then some (c.toNat - '0'.toNat)
  else if 'a' ≤ c ∧ c ≤ 'f' then some (c.toNat - 'a'.toNat + 10)
  else if 'A' ≤ c ∧ c ≤ 'F' then some (c.toNat - 'A'.toNat + 10)
  else none

/-- `hexToChar` from `gbftohtml.cpp`: the byte value of a two-digit hex
pair, or `none` where the C++ aborts on an invalid digit. -/
def hexToChar (a b : Char) : Option Nat :=
  match hexDigitValue a, hexDigitValue b with
  | some first, some second => some (first * 16 + second)
  | _, _ => none

/-- The per-render user data threaded through `handleToken`
(`UserData` of the BibleTime filters): module name, the key's short
text, the footnote counter, the footnote-preamble flag and the
text-pass-through suspension flag. -/
structure UserData where
  moduleName : List Char
  keyShortText : List Char
  swordFootnote : Nat
  hasFootnotePreTag : Bool
  suspendTextPassThru : Bool
deriving DecidableEq, Repr

/-- Result of one `handleToken` call: a rewritten buffer and user data,
delegation to the base-class `GBFHTML::handleToken` (external to this
repository), or a fatal `BT_ASSERT` / `abort`. -/
inductive HandleResult where
  | ok (buf : List Char) (u : UserData)
  | delegated (buf : List Char) (u : UserData)
  | aborted
deriving DecidableEq, Repr

/-- The token substitution table built in the `GbfToHtml` constructor.
The constructor also calls `removeTokenSubstitute("Rf")`, so `Rf` has no
entry; entries inherited from the sword base class are outside this
repository and not represented. -/
def tokenSubstitutes : List (List Char × List Char) := [
  (qs "FI", qs "<span class=\"italic\">"), (qs "Fi", qs "</span>"),
  (qs "FB", qs "<span class=\"bold\">"), (qs "Fb", qs "</span>"),
  (qs "FR", qs "<span class=\"jesuswords\">"), (qs "Fr", qs "</span>"),
  (qs "FU", qs "<u>"), (qs "Fu", qs "</u>"),
  (qs "FO", qs "<span class=\"quotation\">"), (qs "Fo", qs "</span>"),
  (qs "FS", qs "<span class=\"sup\">"), (qs "Fs", qs "</span>"),
  (qs "FV", qs "<span class=\"sub\">"), (qs "Fv", qs "</span>"),
  (qs "TT", qs "<div class=\"booktitle\">"), (qs "Tt", qs "</div>"),
  (qs "TS", qs "<div class=\"sectiontitle\">"), (qs "Ts", qs "</div>"),
  (qs "Fn", qs "</font>"),
  (qs "CL", qs "<br/>"), (qs "CM", qs "<br/>"),
  (qs "CG", qs "&gt;"), (qs "CT", qs "&lt;"),
  (qs "JR", qs "<span class=\"right\">"), (qs "JC", qs "<span class=\"center\">"),
  (qs "JL", qs "</span>")]

/-- Exact, case-sensitive table lookup (`substituteToken`). -/
def substituteToken (t : List Char) : Option (List Char) :=
  (tokenSubstitutes.find? (fun p => p.1 == t)).map (fun p => p.2)

/-- `GbfToHtml::handleToken`: table substitution first, then the
special-cased branches in source order (word-origin markers `WG`, `WH`,
`WT`; footnote markers `RB`, `RF`, `Rf`; font marker `FN`; hex escape
`CA`), with fall-through delegation to the base class. -/
def handleToken (buf : List Char) (token : List Char) (u : UserData) : HandleResult :=
  match substituteToken token with
  | some rep => .ok (buf ++ rep) u
  | none =>
    if token.take 2 = qs "WG" || token.take 2 = qs "WH" || token.take 2 = qs "WT" then
      .ok (buf ++ '<' :: (token ++ [ '>' ])) u
    else if token.take 2 = qs "RB" then
      .ok (buf ++ qs "<span class=\"footnotepre\">") { u with hasFootnotePreTag := true }
    else if token.take 2 = qs "RF" then
      let bu :=
        if u.hasFootnotePreTag then
          (buf ++ qs "</span>", { u with hasFootnotePreTag := false })
        else (buf, u)
      .ok (bu.1 ++ qs " <span class=\"footnote\" note=\"" ++ bu.2.moduleName
             ++ [ '/' ] ++ bu.2.keyShortText ++ [ '/' ]
             ++ (Nat.repr bu.2.swordFootnote).toList ++ qs "\">*</span> ")
        { bu.2 with swordFootnote := bu.2.swordFootnote + 1,
                    suspendTextPassThru := true }
    else if token.take 2 = qs "Rf" then
      .ok buf { u with suspendTextPassThru := false }
    else if token.take 2 = qs "FN" then
      .ok (buf ++ qs "<font face=\"" ++ (token.drop 2).filter (fun c => !(c = '"'))
             ++ qs "\">") u
    else if token.take 2 = qs "CA" then
      if token.length = 4 then
        match hexToChar (token.getD 2 ' ') (token.getD 3 ' ') with
        | some n => .ok (buf ++ [Char.ofNat n]) u
        | none => .aborted
      else .aborted
    else .delegated buf u

/-- Modelled from the spec: the streaming-filter driver
(`sword::SWBasicFilter::processText`, outside this repository's sources;
spec §4.3).  It scans the buffer linearly, dispatches each `<...>`
control token to the substitution table and then `handleToken`, and
appends literal text only while pass-through is not suspended.  A
delegated token is re-emitted verbatim, reflecting
`setPassThruUnknownEscapeString(true)` set in the constructor; an
aborted token aborts the whole call. -/
def streamFilter : Nat → List Char → List Char → UserData →
    Option (List Char × UserData)
  | 0, _, _, _ => none
  | _ + 1, [], buf, u => some (buf, u)
  | fuel + 1, c :: rest, buf, u =>
    if c = '<' then
      let token := rest.takeWhile (fun d => !(d = '>'))
      let rest1 := (rest.dropWhile (fun d => !(d = '>'))).drop 1
      match handleToken buf token u with
      | .ok buf1 u1 => streamFilter fuel rest1 buf1 u1
      | .delegated buf1 u1 =>
        streamFilter fuel rest1 (buf1 ++ '<' :: (token ++ [ '>' ])) u1
      | .aborted => none
    else
      streamFilter fuel rest (if u.suspendTextPassThru then buf else buf ++ [c]) u



/-- Whether `pat` occurs as a contiguous substring of `s`. -/
def containsSeg : List Char → List Char → Bool
  | [], pat => pat.isEmpty
  | c :: rest, pat => (c :: rest).take pat.length == pat || containsSeg rest pat

/-- Number of positions of `s` at which the substring `pat` starts. -/
def countSeg : List Char → List Char → Nat
  | [], _ => 0
  | c :: rest, pat =>
    (if (c :: rest).take pat.length = pat then 1 else 0) + countSeg rest pat

/-- A module with per-entry attribute processing enabled, found in the
backend, with original-language (strong) numbers and morphology tags. -/
def annotatedModule : BtModule :=
  ⟨true, true, false, true, true⟩

/-- A fresh render context: no footnote emitted yet, no pending preamble,
pass-through not suspended. -/
def udata0 : UserData :=
  ⟨qs "MODULE", qs "LOCATOR", 0, false, false⟩

/-! ## Helper lemmas -/

/-- The annotation post-processor returns its input unchanged whenever the
segmentation pattern does not match anywhere (the early exit of
`processText`). -/
theorem processTextPost_of_no_match (t : List Char) (h : qIndexOfSeg t = none) :
    processTextPost t = t := by
  unfold processTextPost
  rw [h]

/-- A successful anchored marker match forces the suffix to start with
`<W` followed by a kind character. -/
theorem markerHere_shape {s : List Char} (h : (markerHere s).isSome) :
    ∃ k rest, s = '<' :: 'W' :: k :: rest := by
  match s with
  | [] => simp [markerHere] at h
  | [a] => simp [markerHere] at h
  | [a, b] => simp [markerHere] at h
  | a :: b :: k :: rest =>
    refine ⟨k, rest, ?_⟩
    by_cases h1 : a = '<' ∧ b = 'W' ∧ (k = 'H' ∨ k = 'G' ∨ k = 'T')
    · rw [h1.1, h1.2.1]
    · simp [markerHere, h1] at h

/-- Characters kept by `takeWhile p` all satisfy `p`, so filtering them
with the negation gives the empty list. -/
theorem filter_not_takeWhile (p : Char → Bool) (l : List Char) :
    (l.takeWhile p).filter (fun c => !(p c)) = [] := by
  induction l with
  | nil => rfl
  | cons a l ih =>
    rw [List.takeWhile_cons]
    by_cases hp : p a
    · rw [if_pos hp, List.filter_cons]
      simp [hp, ih]
    · rw [if_neg hp]
      rfl

/-- The substitution table only holds two-character tokens, so lookup of a
token of any other length fails. -/
theorem substituteToken_of_length_ne_two {t : List Char} (h : t.length ≠ 2) :
    substituteToken t = none := by
  have hall : ∀ p ∈ tokenSubstitutes, p.1.length = 2 := by decide
  unfold substituteToken
  rw [List.find?_eq_none.mpr]
  · rfl
  · intro p hp hbeq
    exact h ((eq_of_beq hbeq) ▸ hall p hp)

/-! ## Claims -/

/-- C4: for every text unit containing no match of the raw word-origin
marker pattern (an optional leading punctuation character followed by one
or more `<W[HGT]...>` tags), the annotation post-processing stage of
`processText` is a no-op: the buffer after `processText` equals the
buffer produced by the streaming-filter stage alone. -/
theorem C4_no_marker_no_op (m : BtModule) (t : List Char)
    (h : qIndexOfSeg t = none) : processText m t = t := by
  unfold processText
  split
  · rfl
  · split
    · rfl
    · exact processTextPost_of_no_match t h

/-- C4 witness: a plain text unit without markers passes through the full
`processText` unchanged. -/
theorem C4_witness :
    qIndexOfSeg (qs "hello world") = none ∧
    processText annotatedModule (qs "hello world") = qs "hello world" :=
  ⟨by decide, C4_no_marker_no_op annotatedModule (qs "hello world") (by decide)⟩

/-- C5 counterexample: the post-processor is not always a no-op on its own
output.  The value capture `[^>]*` may contain `<`, so an inserted
attribute value can itself re-match the raw-marker segmentation pattern:
for the input `word<WH<WH1>` the first run yields
`<span lemma="H<WH1">word</span>`, which the second run rewrites again. -/
theorem C5_counterexample :
    processTextPost (processTextPost (qs "word<WH<WH1>")) ≠
      processTextPost (qs "word<WH<WH1>") := by decide

/-- C5 amended: re-running the post-processor is not a no-op on every
first-run output, but it is a no-op on every first-run output that
contains no match of the raw-marker segmentation pattern: the second run
then takes the no-marker early exit.  (The condition is sufficient, not
necessary: an output may still contain a pattern match and nevertheless
be a fixed point, e.g. an anchor-less fragment passed through
verbatim.) -/
theorem C5_amended_thm (b : List Char)
    (h : qIndexOfSeg (processTextPost b) = none) :
    processTextPost (processTextPost b) = processTextPost b :=
  processTextPost_of_no_match (processTextPost b) h

/-- C5 witness: for `Am Anfang<WH07225>` the first run's output contains
no further marker match, so the second run leaves it unchanged. -/
theorem C5_witness :
    qIndexOfSeg (processTextPost (qs "Am Anfang<WH07225>")) = none ∧
    processTextPost (processTextPost (qs "Am Anfang<WH07225>")) =
      processTextPost (qs "Am Anfang<WH07225>") :=
  ⟨by decide, C5_amended_thm (qs "Am Anfang<WH07225>") (by decide)⟩

/-- C6: a fragment whose text, after trimming whitespace and dropping
leading `[.,;:]` punctuation, begins with a raw word-origin marker (so
there is no anchor word) is emitted verbatim by the per-fragment
processing: no marker is stripped and no span is inserted. -/
theorem C6_no_anchor_verbatim (e : List Char)
    (h : (markerHere ((qtrim e).dropWhile isSegPunct)).isSome) :
    processFragment e = e := by
  obtain ⟨k, rest, hd⟩ := markerHere_shape h
  have hfilter : ((qtrim e).filter (fun c => !(isSegPunct c))).take 2 = qs "<W" := by
    conv_lhs =>
      rw [← List.takeWhile_append_dropWhile (p := isSegPunct) (l := qtrim e)]
    rw [List.filter_append, filter_not_takeWhile, hd]
    rfl
  unfold processFragment
  rw [if_pos hfilter]

/-- C6 witness: a fragment consisting only of a marker (with leading
punctuation and whitespace) is passed through with the marker intact. -/
theorem C6_witness :
    (markerHere ((qtrim (qs " .<WH0776> ")).dropWhile isSegPunct)).isSome ∧
    processFragment (qs " .<WH0776> ") = qs " .<WH0776> " :=
  ⟨by decide, C6_no_anchor_verbatim (qs " .<WH0776> ") (by decide)⟩

/-- C7: when the owning module has per-entry attribute processing
disabled, `processText` skips the entire annotation post-processor and
returns the streaming-filter buffer unchanged, so no annotation span is
ever inserted. -/
theorem C7_guard_disabled (m : BtModule) (buf : List Char)
    (h : m.processEntryAttributes = false) : processText m buf = buf := by
  unfold processText
  rw [h]
  rfl

/-- C7 witness: with attribute processing disabled, even a buffer full of
markers is returned unchanged. -/
theorem C7_witness :
    (⟨false, true, true, true, true⟩ : BtModule).processEntryAttributes = false ∧
    processText ⟨false, true, true, true, true⟩ (qs "schuf<WH01254><WTH8804>") =
      qs "schuf<WH01254><WTH8804>" :=
  ⟨rfl, C7_guard_disabled ⟨false, true, true, true, true⟩
    (qs "schuf<WH01254><WTH8804>") rfl⟩

/-- C1 counterexample: for `Am Anfang<WH07225> schuf<WH01254><WTH8804>`
with origin numbers and morphology enabled, the output does not contain
a `morph="T8804"` attribute (the kind letter `T` is only a discriminator;
`cap(2)` is `H8804`), and the lemma attribute of `schuf` does not precede
the morph attribute: the later different-kind attribute is inserted right
after the tag name, in front of the first attribute. -/
theorem C1_counterexample :
    processText annotatedModule (qs "Am Anfang<WH07225> schuf<WH01254><WTH8804>") =
      qs "<span lemma=\"H07225\">Am Anfang</span> <span morph=\"H8804\" lemma=\"H01254\">schuf</span>" ∧
    containsSeg
      (processText annotatedModule (qs "Am Anfang<WH07225> schuf<WH01254><WTH8804>"))
      (qs "morph=\"T8804\"") = false ∧
    containsSeg
      (processText annotatedModule (qs "Am Anfang<WH07225> schuf<WH01254><WTH8804>"))
      (qs "lemma=\"H01254\" morph") = false := by decide

/-- C1 amended: the output wraps `Am Anfang` with `lemma="H07225"` and
wraps `schuf` with `lemma="H01254"` and `morph="H8804"` (the marker
payload after the kind letter), and the morph attribute appears before
the lemma attribute, because an attribute of a new kind is inserted
directly after the span tag name, in front of the attribute discovered
first. -/
theorem C1_amended_thm :
    processText annotatedModule (qs "Am Anfang<WH07225> schuf<WH01254><WTH8804>") =
      qs "<span lemma=\"H07225\">Am Anfang</span> <span morph=\"H8804\" lemma=\"H01254\">schuf</span>" ∧
    containsSeg
      (processText annotatedModule (qs "Am Anfang<WH07225> schuf<WH01254><WTH8804>"))
      (qs "<span lemma=\"H07225\">Am Anfang</span>") = true ∧
    containsSeg
      (processText annotatedModule (qs "Am Anfang<WH07225> schuf<WH01254><WTH8804>"))
      (qs "<span morph=\"H8804\" lemma=\"H01254\">schuf</span>") = true := by decide

/-- C2 counterexample: in the marker run `<WH1><WT2><WH3>` the kinds
alternate, and the third marker creates a second `lemma` attribute on the
same span instead of appending `|H3` to the existing one: the flag pair
`hasLemmaAttr` / `hasMorphAttr` only tracks the kind of the most recently
processed marker. -/
theorem C2_counterexample :
    processTextPost (qs "word<WH1><WT2><WH3>") =
      qs "<span lemma=\"H3\" morph=\"2\" lemma=\"H1\">word</span>" ∧
    countSeg (processTextPost (qs "word<WH1><WT2><WH3>")) (qs "lemma=\"") = 2 := by
  decide

/-- C2 amended: a later marker's value is appended to an existing
attribute with a `|` separator only when its kind equals the kind of the
immediately preceding marker in the run (as in `<WH1><WH2>`, which yields
the single attribute `lemma="H1|H2"`); when the kinds alternate, a marker
whose kind matches an attribute that is no longer the most recent one
creates a second attribute of the same name (as in `<WH1><WT2><WH3>`). -/
theorem C2_amended_thm :
    processTextPost (qs "word<WH1><WH2>") = qs "<span lemma=\"H1|H2\">word</span>" ∧
    countSeg (processTextPost (qs "word<WH1><WH2>")) (qs "lemma=\"") = 1 ∧
    countSeg (processTextPost (qs "word<WH1><WT2><WH3>")) (qs "lemma=\"") = 2 := by
  decide

/-- C3 counterexample: an empty-payload morph marker is not consumed: for
`word<WT>` the loop breaks before any rewrite and the raw `<WT>` marker
remains in the output; and for `word<WH>` the value is never empty (the
kind letter is prepended), so a `lemma="H"` attribute is created. -/
theorem C3_counterexample :
    containsSeg (processTextPost (qs "word<WT>")) (qs "<WT>") = true ∧
    processTextPost (qs "word<WH>") = qs "<span lemma=\"H\">word</span>" := by
  decide

/-- C3 amended: a morph marker `<WT>` with empty payload stops marker
processing for its fragment: no attribute is created or appended, but the
marker stays in the output verbatim; an origin-number marker `<WH>` or
`<WG>` with empty payload gets the kind letter prepended to its value, so
its value is nonempty and it creates a lemma attribute holding just the
kind letter. -/
theorem C3_amended_thm :
    processTextPost (qs "word<WT>") = qs "word<WT>" ∧
    processTextPost (qs "word<WH>") = qs "<span lemma=\"H\">word</span>" ∧
    processTextPost (qs "word<WG>") = qs "<span lemma=\"G\">word</span>" := by
  decide

/-- C8: for a 4-character token `CAxy`, `handleToken` appends exactly the
single raw byte `16*x + y` when both `x` and `y` are valid hexadecimal
digits (so `<CA41>` appends byte 0x41), and aborts the process (the
`BT_ASSERT(false); abort()` in `hexDigitValue`) without appending
anything when either digit is invalid. -/
theorem C8_hex_escape (buf : List Char) (u : UserData) (x y : Char) :
    (∀ vx vy, hexDigitValue x = some vx → hexDigitValue y = some vy →
      handleToken buf ('C' :: 'A' :: [x, y]) u =
        .ok (buf ++ [Char.ofNat (vx * 16 + vy)]) u) ∧
    ((hexDigitValue x = none ∨ hexDigitValue y = none) →
      handleToken buf ('C' :: 'A' :: [x, y]) u = .aborted) := by
  have hca : ∀ r : Option Nat, hexToChar x y = r →
      handleToken buf ('C' :: 'A' :: [x, y]) u =
        (match r with
         | some n => HandleResult.ok (buf ++ [Char.ofNat n]) u
         | none => HandleResult.aborted) := by
    intro r hr
    subst hr
    rfl
  constructor
  · intro vx vy hx hy
    exact hca (some (vx * 16 + vy)) (by unfold hexToChar; rw [hx, hy])
  · intro hbad
    refine hca none ?_
    unfold hexToChar
    rcases hbad with h | h
    · rw [h]
    · rw [h]
      cases hexDigitValue x <;> rfl

/-- C8 witness: `<CA41>` appends exactly the byte 0x41 (the letter `A`)
and `<CAZZ>` aborts. -/
theorem C8_witness :
    handleToken [] (qs "CA41") udata0 = .ok [Char.ofNat 65] udata0 ∧
    handleToken [] (qs "CAZZ") udata0 = .aborted :=
  ⟨(C8_hex_escape [] udata0 '4' '1').1 4 1 rfl rfl,
   (C8_hex_escape [] udata0 'Z' 'Z').2 (Or.inl rfl)⟩

/-- C9: for the input `<RB>text<RF><Rf>` with a fresh render context, the
streaming filter emits one footnote-preamble span, closed before a single
footnote-reference span `<span class="footnote" note="MODULE/LOCATOR/0">*</span>`
numbered 0; the `RF` token leaves text pass-through suspended, the `Rf`
token (which has no substitution-table entry) clears the suspension
again, and no text is lost or duplicated. -/
theorem C9_footnote :
    streamFilter 32 (qs "<RB>text<RF><Rf>") [] udata0 =
      some (qs "<span class=\"footnotepre\">text</span> <span class=\"footnote\" note=\"MODULE/LOCATOR/0\">*</span> ",
            ⟨qs "MODULE", qs "LOCATOR", 1, false, false⟩) ∧
    (streamFilter 32 (qs "<RB>text<RF>") [] udata0).map
      (fun p => p.2.suspendTextPassThru) = some true ∧
    substituteToken (qs "Rf") = none ∧
    countSeg (qs "<span class=\"footnotepre\">text</span> <span class=\"footnote\" note=\"MODULE/LOCATOR/0\">*</span> ")
      (qs "note=\"MODULE/LOCATOR/") = 1 := by decide

/-- C10: any token that starts with `CA`, has no substitution-table entry
(so it reaches the handler's special-case branch) and whose total length
is not exactly 4 makes `handleToken` abort (the
`BT_ASSERT(tokenLength == 4u)`) before decoding anything, even when the
digits present are valid hexadecimal. -/
theorem C10_ca_length_abort (buf : List Char) (u : UserData) (token : List Char)
    (h1 : token.take 2 = qs "CA") (h2 : substituteToken token = none)
    (h3 : token.length ≠ 4) : handleToken buf token u = .aborted := by
  unfold handleToken
  rw [h2]
  simp only [h1, h3]
  rfl

/-- C10 witness: `CA411` carries only valid hexadecimal digits but has
length 5, and `handleToken` aborts on it. -/
theorem C10_witness :
    (qs "CA411").take 2 = qs "CA" ∧
    substituteToken (qs "CA411") = none ∧
    (qs "CA411").length ≠ 4 ∧
    handleToken [] (qs "CA411") udata0 = .aborted :=
  ⟨rfl, by decide, by decide,
   C10_ca_length_abort [] udata0 (qs "CA411") rfl (by decide) (by decide)⟩
